import Mathlib

/-
Shallow embedding of the anomaly-detection and recharge-tracking core of the
Spending_Analyzer_Dashboard repository.

Two copies of the detectors exist in the source:
  - src/frontend/dashboard.py                      (namespace DB below)
  - src/singleUserDatasetGenerator/anomalyDetector.py  (namespace AD below)

A transaction row is a record of the CSV columns.  Timestamps are modelled as
integer seconds (pandas timestamps at second granularity; the CSV carries whole
seconds).  The timestamp column is optional: the dashboard main flow assigns it
before calling the detectors, while anomalyDetector.detect_duplicates assigns
it itself, onto its input frame.  Amounts are rationals.
-/

structure Row where
  date : String
  time : String
  timestamp : Option Int
  amount : ℚ
  merchant : String
  category : String
  city : String
  txn_type : String
  payment_mode : String
deriving Repr, DecidableEq

/-- Split a character list on a separator character (the splitting underlying
the date and time fields; structural recursion so that it evaluates). -/
def splitOnChar (c : Char) : List Char → List (List Char)
  | [] => [[]]
  | ch :: rest =>
    if ch = c then [] :: splitOnChar c rest
    else
      match splitOnChar c rest with
      | [] => [[ch]]
      | g :: gs => (ch :: g) :: gs

/-- Reading of a decimal digit field of a date or time string. -/
def digitsToNat (l : List Char) : Nat :=
  l.foldl (fun acc ch => 10 * acc + (ch.toNat - 48)) 0

/-- Days since 1970-01-01 of a proleptic-Gregorian civil date (the classic
days-from-civil computation, matching the value semantics of pd.to_datetime). -/
def daysFromCivil (y : Int) (m d : Int) : Int :=
  let y2 := if m ≤ 2 then y - 1 else y
  let era := Int.fdiv y2 400
  let yoe := y2 - era * 400
  let mp := Int.emod (m + 9) 12
  let doy := Int.fdiv (153 * mp + 2) 5 + d - 1
  let doe := yoe * 365 + Int.fdiv yoe 4 - Int.fdiv yoe 100 + doy
  era * 146097 + doe - 719468

/-- The hyphen and colon separator characters of the date and time fields. -/
def hyphenChar : Char := Char.ofNat 45

def colonChar : Char := Char.ofNat 58

/-- Parse a YYYY-MM-DD date string to days since the epoch. -/
def parseDate (s : String) : Int :=
  match splitOnChar hyphenChar s.toList with
  | [y, m, d] => daysFromCivil (digitsToNat y) (digitsToNat m) (digitsToNat d)
  | _ => 0

/-- Parse a HH:MM:SS time string to seconds past midnight. -/
def parseTime (s : String) : Int :=
  match splitOnChar colonChar s.toList with
  | [h, mi, se] =>
    3600 * (digitsToNat h : Int) + 60 * (digitsToNat mi : Int) + (digitsToNat se : Int)
  | _ => 0

/-- Value of pd.to_datetime applied to the concatenation date + space + time,
in epoch seconds. -/
def parseTS (d t : String) : Int := 86400 * parseDate d + parseTime t

/-- Value of the timestamp column of a row (the detectors read it only on
frames where the column has been assigned, so the default is never reached). -/
def tsVal (r : Row) : Int := r.timestamp.getD 0

/-- Assignment of the parsed timestamp column into one row: the effect, per
row, of the statement that builds the timestamp column from date and time. -/
def setTS (r : Row) : Row :=
  { r with timestamp := some (parseTS r.date r.time) }

/-- Ascending order on index-tagged rows by timestamp: the sort_values order
used by the duplicate scans (modelled with a stable sort). -/
def tsLE (a b : Nat × Row) : Prop := tsVal a.2 ≤ tsVal b.2

instance : DecidableRel tsLE := fun a b => inferInstanceAs (Decidable (tsVal a.2 ≤ tsVal b.2))

instance : IsTotal (Nat × Row) tsLE := ⟨fun a b => Int.le_total (tsVal a.2) (tsVal b.2)⟩

instance : IsTrans (Nat × Row) tsLE := ⟨fun _ _ _ hab hbc => le_trans hab hbc⟩

/-- Descending order on rows by timestamp: sort_values with ascending False,
used by the recharge trackers. -/
def tsGE (a b : Row) : Prop := tsVal b ≤ tsVal a

instance : DecidableRel tsGE := fun a b => inferInstanceAs (Decidable (tsVal b ≤ tsVal a))

instance : IsTotal Row tsGE := ⟨fun a b => (Int.le_total (tsVal b) (tsVal a))⟩

instance : IsTrans Row tsGE := ⟨fun _ _ _ hab hbc => le_trans hbc hab⟩

/-- Inner loop of the duplicate scan for a fixed current row: walk the later
rows of the sorted frame, stop at the first one more than 3 minutes (180
seconds) ahead, and for every earlier candidate equal under the field
comparison add both original indices.  The field comparison is a parameter
because the two source copies compare different field sets. -/
def scanAhead (eq : Row → Row → Bool) (cur : Nat × Row) : List (Nat × Row) → List Nat
  | [] => []
  | c :: rest =>
    if 180 < tsVal c.2 - tsVal cur.2 then []
    else (if eq cur.2 c.2 then [cur.1, c.1] else []) ++ scanAhead eq cur rest

/-- Outer loop of the duplicate scan: run the inner scan from every position
of the timestamp-sorted frame and collect the flagged original indices. -/
def collectDups (eq : Row → Row → Bool) : List (Nat × Row) → List Nat
  | [] => []
  | x :: rest => scanAhead eq x rest ++ collectDups eq rest

/-- Central element, or mean of the two central elements, of an already
sorted column; no value on an empty column. -/
def medianOfSorted (s : List ℚ) : Option ℚ :=
  if s.length = 0 then none
  else if s.length % 2 = 1 then some (s.getD (s.length / 2) 0)
  else some ((s.getD (s.length / 2 - 1) 0 + s.getD (s.length / 2) 0) / 2)

/-- Median of the amount column as pandas computes it: sort, take the middle
element for odd length, the mean of the two central elements for even length,
and no value on an empty column (pandas yields NaN there, and every comparison
with NaN is false, which the none branch of the spike filter reproduces). -/
def median (l : List ℚ) : Option ℚ :=
  medianOfSorted (List.insertionSort (fun a b : ℚ => a ≤ b) l)

/-- Spike detector, identical in both source copies: keep the rows whose
amount strictly exceeds ten times the median amount. -/
def detect_spikes (df : List Row) : List Row :=
  match median (df.map Row.amount) with
  | none => []
  | some m => df.filter (fun r => decide (10 * m < r.amount))

/-- Locality detector, identical in both source copies: keep the rows whose
city differs from the base city (the source defaults base_city to Pune). -/
def detect_out_of_city (df : List Row) (base_city : String) : List Row :=
  df.filter (fun r => r.city != base_city)

/-- The hard-coded recharge validity table, identical in both source copies:
plan price to validity period in days, as a partial lookup. -/
def RECHARGE_VALIDITY (a : ℚ) : Option Nat :=
  if a = 149 then some 20
  else if a = 199 then some 28
  else if a = 239 then some 28
  else if a = 299 then some 28
  else if a = 349 then some 28
  else if a = 399 then some 28
  else if a = 179 then some 28
  else if a = 269 then some 28
  else if a = 187 then some 28
  else if a = 247 then some 28
  else if a = 319 then some 28
  else none

namespace DB

/-- Field comparison of the dashboard duplicate detector: amount, merchant,
txn_type and city.  The dashboard copy does not compare payment_mode. -/
def dupEq (a b : Row) : Bool :=
  decide (a.amount = b.amount) && decide (a.merchant = b.merchant)
    && decide (a.txn_type = b.txn_type) && decide (a.city = b.city)

/-- detect_duplicates of src/frontend/dashboard.py: sort a copy of the frame
by the existing timestamp column, run the windowed pairwise scan, and return
the set of flagged original indices (the source maps them back to rows with
df.loc and re-sorts; membership in the index set is the result content). -/
def detect_duplicates (df : List Row) : List Nat :=
  collectDups dupEq (List.insertionSort tsLE df.enum)

/-- An active recharge record of the dashboard tracker.  Dates are epoch
seconds; the source renders start and due dates as strings for display. -/
structure ActiveRecharge where
  merchant : String
  amount : ℚ
  start_date : Int
  due_date : Int
  days_remaining : Int
  validity_days : Nat
deriving Repr, DecidableEq

/-- One iteration of the dashboard recharge loop, over the accumulator pair
of emitted records and the seen set of merchant-amount keys.  Note that the
seen set is extended only inside the activity branch. -/
def rechargeStep (now : Int) (acc : List ActiveRecharge × List (String × ℚ))
    (row : Row) : List ActiveRecharge × List (String × ℚ) :=
  if (row.merchant, row.amount) ∈ acc.2 then acc
  else
    match RECHARGE_VALIDITY row.amount with
    | none => acc
    | some v =>
      let start_date := tsVal row
      let end_date := start_date + 86400 * v
      if now < end_date then
        (acc.1 ++ [{ merchant := row.merchant, amount := row.amount,
                     start_date := start_date, due_date := end_date,
                     days_remaining := Int.fdiv (end_date - now) 86400,
                     validity_days := v }],
         acc.2 ++ [(row.merchant, row.amount)])
      else acc

/-- Full loop state of detect_all_current_recharges: filter to the Recharge
category, sort by timestamp descending, and fold the loop body.  The source
reads the clock twice per emitted row, a few microseconds apart; the model
passes the sampled clock as the explicit parameter now, read once. -/
def rechargeState (df : List Row) (now : Int) :
    List ActiveRecharge × List (String × ℚ) :=
  (List.insertionSort tsGE (df.filter (fun r => r.category == "Recharge"))).foldl
    (rechargeStep now) ([], [])

/-- detect_all_current_recharges of src/frontend/dashboard.py: the emitted
records of the loop, in emission order. -/
def detect_all_current_recharges (df : List Row) (now : Int) : List ActiveRecharge :=
  (rechargeState df now).1

end DB

namespace AD

/-- Field comparison of the anomalyDetector duplicate detector: amount,
merchant, txn_type, payment_mode and city. -/
def dupEq (a b : Row) : Bool :=
  decide (a.amount = b.amount) && decide (a.merchant = b.merchant)
    && decide (a.txn_type = b.txn_type) && decide (a.payment_mode = b.payment_mode)
    && decide (a.city = b.city)

/-- detect_duplicates of src/singleUserDatasetGenerator/anomalyDetector.py.
Its first statement assigns the parsed timestamp column onto the input frame
itself, so the function is embedded with explicit state passing: it returns
the flagged index set together with the updated input table. -/
def detect_duplicates (df : List Row) : List Nat × List Row :=
  let df2 := df.map setTS
  (collectDups dupEq (List.insertionSort tsLE df2.enum), df2)

/-- An active recharge record of the anomalyDetector tracker (it has no
days_remaining field). -/
structure ADRecharge where
  start_date : Int
  end_date : Int
  merchant : String
  amount : ℚ
  validity_days : Nat
deriving Repr, DecidableEq

/-- One iteration of the anomalyDetector recharge loop.  The skip test
compares only the merchant and the start dates of already emitted records:
the amount is not part of the key. -/
def rechargeStep (now : Int) (acc : List ADRecharge) (row : Row) : List ADRecharge :=
  match RECHARGE_VALIDITY row.amount with
  | none => acc
  | some v =>
    let start_date := tsVal row
    let end_date := start_date + 86400 * v
    if now < end_date then
      if acc.any (fun r => decide (r.merchant = row.merchant) && decide (start_date ≤ r.start_date))
      then acc
      else acc ++ [{ start_date := start_date, end_date := end_date,
                     merchant := row.merchant, amount := row.amount,
                     validity_days := v }]
    else acc

/-- detect_current_recharge of src/singleUserDatasetGenerator/anomalyDetector.py:
filter to the Recharge category, sort by timestamp descending, and fold the
loop body.  The sampled clock is the explicit parameter now. -/
def detect_current_recharge (df : List Row) (now : Int) : List ADRecharge :=
  (List.insertionSort tsGE (df.filter (fun r => r.category == "Recharge"))).foldl
    (rechargeStep now) []

end AD

/-
Lemmas about the shared duplicate scan.
-/

/-- Soundness of the inner scan: every flagged index comes from a candidate
matched against the current row within the window, and in that event both the
current index and the candidate index are flagged. -/
lemma mem_scanAhead {eq : Row → Row → Bool} (cur : Nat × Row) :
    ∀ (l : List (Nat × Row)) (a : Nat), a ∈ scanAhead eq cur l →
      ∃ c, c ∈ l ∧ eq cur.2 c.2 = true ∧ tsVal c.2 - tsVal cur.2 ≤ 180 ∧
        (a = cur.1 ∨ a = c.1) ∧ cur.1 ∈ scanAhead eq cur l ∧ c.1 ∈ scanAhead eq cur l := by
  intro l
  induction l with
  | nil => intro a ha; simp [scanAhead] at ha
  | cons c rest ih =>
    intro a ha
    rw [scanAhead] at ha
    by_cases hgap : 180 < tsVal c.2 - tsVal cur.2
    · rw [if_pos hgap] at ha; simp at ha
    · rw [if_neg hgap] at ha
      rcases List.mem_append.mp ha with hL | hR
      · by_cases hm : eq cur.2 c.2 = true
        · refine ⟨c, List.mem_cons_self _ _, hm, not_lt.mp hgap, ?_, ?_, ?_⟩
          · rw [if_pos hm] at hL; simpa using hL
          · rw [scanAhead, if_neg hgap, if_pos hm]; simp
          · rw [scanAhead, if_neg hgap, if_pos hm]; simp
        · rw [if_neg hm] at hL; simp at hL
      · obtain ⟨c2, hc2mem, hceq, hcgap, haor, hcur, hc1⟩ := ih a hR
        refine ⟨c2, List.mem_cons_of_mem _ hc2mem, hceq, hcgap, haor, ?_, ?_⟩
        · rw [scanAhead, if_neg hgap]; exact List.mem_append.mpr (Or.inr hcur)
        · rw [scanAhead, if_neg hgap]; exact List.mem_append.mpr (Or.inr hc1)

/-- Completeness of the inner scan on a sorted suffix: the early break loses
no matching candidate at most 180 seconds ahead of the current row. -/
lemma scanAhead_complete {eq : Row → Row → Bool} (cur : Nat × Row) :
    ∀ (l : List (Nat × Row)), List.Sorted tsLE (cur :: l) →
      ∀ c, c ∈ l → eq cur.2 c.2 = true → tsVal c.2 - tsVal cur.2 ≤ 180 →
      cur.1 ∈ scanAhead eq cur l ∧ c.1 ∈ scanAhead eq cur l := by
  intro l
  induction l with
  | nil => intro _ c hc; simp at hc
  | cons h t ih =>
    intro hsorted c hc hceq hcgap
    rcases List.mem_cons.mp hc with rfl | hct
    · have hgapneg : ¬ 180 < tsVal c.2 - tsVal cur.2 := not_lt.mpr hcgap
      constructor <;> (rw [scanAhead, if_neg hgapneg, if_pos hceq]; simp)
    · have hhc : tsVal h.2 ≤ tsVal c.2 := by
        have hp := (List.pairwise_cons.mp hsorted).2
        exact (List.pairwise_cons.mp hp).1 c hct
      have hgapneg : ¬ 180 < tsVal h.2 - tsVal cur.2 := by omega
      have hsorted2 : List.Sorted tsLE (cur :: t) :=
        List.Pairwise.sublist (List.Sublist.cons₂ _ (List.sublist_cons_self h t)) hsorted
      obtain ⟨h1, h2⟩ := ih hsorted2 c hct hceq hcgap
      constructor <;>
        · rw [scanAhead, if_neg hgapneg]
          first
          | exact List.mem_append.mpr (Or.inr h1)
          | exact List.mem_append.mpr (Or.inr h2)

/-- Soundness of the outer scan on a sorted frame with distinct indices:
every flagged index belongs to a row of the frame that was matched, in one
direction or the other, against another row at most 180 seconds away, and
the indices of both rows of such a pair are flagged. -/
lemma collectDups_sound {eq : Row → Row → Bool} :
    ∀ (l : List (Nat × Row)), List.Sorted tsLE l → (l.map Prod.fst).Nodup →
      ∀ a, a ∈ collectDups eq l →
      ∃ x y, x ∈ l ∧ y ∈ l ∧ x.1 ≠ y.1 ∧ a = x.1 ∧
        x.1 ∈ collectDups eq l ∧ y.1 ∈ collectDups eq l ∧
        (eq x.2 y.2 = true ∨ eq y.2 x.2 = true) ∧
        -180 ≤ tsVal x.2 - tsVal y.2 ∧ tsVal x.2 - tsVal y.2 ≤ 180 := by
  intro l
  induction l with
  | nil => intro _ _ a ha; simp [collectDups] at ha
  | cons h t ih =>
    intro hsorted hnodup a ha
    have hnodup2 : h.1 ∉ t.map Prod.fst ∧ (t.map Prod.fst).Nodup := by
      rw [List.map_cons] at hnodup
      exact List.nodup_cons.mp hnodup
    rw [collectDups] at ha
    rcases List.mem_append.mp ha with hL | hR
    · obtain ⟨c, hcmem, hceq, hcgap, haor, hcurmem, hcmem1⟩ := mem_scanAhead h t a hL
      have h_le_c : tsVal h.2 ≤ tsVal c.2 := (List.pairwise_cons.mp hsorted).1 c hcmem
      have hne : h.1 ≠ c.1 := by
        intro hcon
        exact hnodup2.1 (hcon ▸ List.mem_map_of_mem Prod.fst hcmem)
      have hmemh : h.1 ∈ collectDups eq (h :: t) := by
        rw [collectDups]; exact List.mem_append.mpr (Or.inl hcurmem)
      have hmemc : c.1 ∈ collectDups eq (h :: t) := by
        rw [collectDups]; exact List.mem_append.mpr (Or.inl hcmem1)
      rcases haor with rfl | rfl
      · exact ⟨h, c, List.mem_cons_self _ _, List.mem_cons_of_mem _ hcmem, hne, rfl,
          hmemh, hmemc, Or.inl hceq, by omega, by omega⟩
      · exact ⟨c, h, List.mem_cons_of_mem _ hcmem, List.mem_cons_self _ _, hne.symm, rfl,
          hmemc, hmemh, Or.inr hceq, by omega, by omega⟩
    · obtain ⟨x, y, hx, hy, hxy, hax, hxmem, hymem, heq, hlb, hub⟩ :=
        ih (List.pairwise_cons.mp hsorted).2 hnodup2.2 a hR
      refine ⟨x, y, List.mem_cons_of_mem _ hx, List.mem_cons_of_mem _ hy, hxy, hax, ?_, ?_,
        heq, hlb, hub⟩
      · rw [collectDups]; exact List.mem_append.mpr (Or.inr hxmem)
      · rw [collectDups]; exact List.mem_append.mpr (Or.inr hymem)

/-- Completeness of the outer scan on a sorted frame: any two distinct rows
that match under the field comparison and lie within 180 seconds of each
other both get their index flagged. -/
lemma collectDups_complete {eq : Row → Row → Bool} :
    ∀ (l : List (Nat × Row)), List.Sorted tsLE l →
      ∀ x y, x ∈ l → y ∈ l → x ≠ y →
      eq x.2 y.2 = true → eq y.2 x.2 = true →
      -180 ≤ tsVal x.2 - tsVal y.2 → tsVal x.2 - tsVal y.2 ≤ 180 →
      x.1 ∈ collectDups eq l ∧ y.1 ∈ collectDups eq l := by
  intro l
  induction l with
  | nil => intro _ x y hx; simp at hx
  | cons h t ih =>
    intro hsorted x y hx hy hxy hxyeq hyxeq hlb hub
    rcases List.mem_cons.mp hx with rfl | hxt
    · rcases List.mem_cons.mp hy with rfl | hyt
      · exact absurd rfl hxy
      · obtain ⟨h1, h2⟩ := scanAhead_complete x t hsorted y hyt hxyeq (by omega)
        constructor <;>
          · rw [collectDups]
            first
            | exact List.mem_append.mpr (Or.inl h1)
            | exact List.mem_append.mpr (Or.inl h2)
    · rcases List.mem_cons.mp hy with rfl | hyt
      · obtain ⟨h1, h2⟩ := scanAhead_complete y t hsorted x hxt hyxeq (by omega)
        constructor <;>
          · rw [collectDups]
            first
            | exact List.mem_append.mpr (Or.inl h1)
            | exact List.mem_append.mpr (Or.inl h2)
      · obtain ⟨h1, h2⟩ := ih (List.pairwise_cons.mp hsorted).2 x y hxt hyt hxy hxyeq hyxeq hlb hub
        constructor <;>
          · rw [collectDups]
            first
            | exact List.mem_append.mpr (Or.inr h1)
            | exact List.mem_append.mpr (Or.inr h2)

/-- The timestamp-sorted, index-tagged view of a frame, as built by
sort_values followed by reset_index. -/
def sortEnum (df : List Row) : List (Nat × Row) :=
  List.insertionSort tsLE df.enum

lemma sorted_sortEnum (df : List Row) : List.Sorted tsLE (sortEnum df) :=
  List.sorted_insertionSort tsLE df.enum

lemma nodup_fst_sortEnum (df : List Row) : ((sortEnum df).map Prod.fst).Nodup := by
  have hperm := (List.perm_insertionSort tsLE df.enum).map Prod.fst
  rw [sortEnum, hperm.nodup_iff, List.enum_map_fst]
  exact List.nodup_range _

lemma mem_sortEnum {df : List Row} {x : Nat × Row} :
    x ∈ sortEnum df ↔ df[x.1]? = some x.2 := by
  rw [sortEnum, List.mem_insertionSort, List.mem_enum_iff_getElem?]

lemma DB.dbDupEq_iff {a b : Row} :
    DB.dupEq a b = true ↔
      a.amount = b.amount ∧ a.merchant = b.merchant ∧
      a.txn_type = b.txn_type ∧ a.city = b.city := by
  simp [DB.dupEq, Bool.and_eq_true, and_assoc]

lemma DB.dbDupEq_comm {a b : Row} (h : DB.dupEq a b = true) : DB.dupEq b a = true := by
  rw [DB.dbDupEq_iff] at h ⊢
  exact ⟨h.1.symm, h.2.1.symm, h.2.2.1.symm, h.2.2.2.symm⟩

lemma AD.adDupEq_iff {a b : Row} :
    AD.dupEq a b = true ↔
      a.amount = b.amount ∧ a.merchant = b.merchant ∧ a.txn_type = b.txn_type ∧
      a.payment_mode = b.payment_mode ∧ a.city = b.city := by
  simp [AD.dupEq, Bool.and_eq_true, and_assoc]

lemma AD.adDupEq_comm {a b : Row} (h : AD.dupEq a b = true) : AD.dupEq b a = true := by
  rw [AD.adDupEq_iff] at h ⊢
  exact ⟨h.1.symm, h.2.1.symm, h.2.2.1.symm, h.2.2.2.1.symm, h.2.2.2.2.symm⟩

/-- C9: every transaction flagged by the anomalyDetector duplicate detector
has a distinct partner transaction, also flagged, that agrees with it on all
five compared fields and whose timestamp lies within the 3-minute window;
consequently the flagged index set is never a singleton: it is empty or has
at least two distinct members. -/
theorem dup_partner_and_no_singleton :
    (∀ (df : List Row) (a : Nat), a ∈ (AD.detect_duplicates df).1 →
      ∃ b, b ∈ (AD.detect_duplicates df).1 ∧ b ≠ a ∧
        ∃ ra rb, (AD.detect_duplicates df).2[a]? = some ra ∧
          (AD.detect_duplicates df).2[b]? = some rb ∧ AD.dupEq ra rb = true ∧
          -180 ≤ tsVal ra - tsVal rb ∧ tsVal ra - tsVal rb ≤ 180) ∧
    (∀ df : List Row, (AD.detect_duplicates df).1 ≠ [] →
      ∃ a b, a ∈ (AD.detect_duplicates df).1 ∧ b ∈ (AD.detect_duplicates df).1 ∧ a ≠ b) := by
  have main : ∀ (df : List Row) (a : Nat), a ∈ (AD.detect_duplicates df).1 →
      ∃ b, b ∈ (AD.detect_duplicates df).1 ∧ b ≠ a ∧
        ∃ ra rb, (AD.detect_duplicates df).2[a]? = some ra ∧
          (AD.detect_duplicates df).2[b]? = some rb ∧ AD.dupEq ra rb = true ∧
          -180 ≤ tsVal ra - tsVal rb ∧ tsVal ra - tsVal rb ≤ 180 := by
    intro df a ha
    have h1 : (AD.detect_duplicates df).1 = collectDups AD.dupEq (sortEnum (df.map setTS)) := rfl
    have h2 : (AD.detect_duplicates df).2 = df.map setTS := rfl
    rw [h1] at ha
    obtain ⟨x, y, hx, hy, hxy, hax, hxm, hym, heq, hlb, hub⟩ :=
      collectDups_sound _ (sorted_sortEnum _) (nodup_fst_sortEnum _) a ha
    subst hax
    refine ⟨y.1, by rw [h1]; exact hym, Ne.symm hxy, x.2, y.2, ?_, ?_, ?_, hlb, hub⟩
    · rw [h2]; exact mem_sortEnum.mp hx
    · rw [h2]; exact mem_sortEnum.mp hy
    · rcases heq with heq | heq
      · exact heq
      · exact AD.adDupEq_comm heq
  refine ⟨main, ?_⟩
  intro df hne
  obtain ⟨a, ha⟩ := List.exists_mem_of_ne_nil _ hne
  obtain ⟨b, hb, hba, _⟩ := main df a ha
  exact ⟨a, b, ha, hb, Ne.symm hba⟩

lemma tsVal_setTS (r : Row) : tsVal (setTS r) = parseTS r.date r.time := rfl

lemma AD.dupEq_setTS (a b : Row) : AD.dupEq (setTS a) (setTS b) = AD.dupEq a b := rfl

/-- C5: the dashboard duplicate scan loses no qualifying pair: any two
distinct positions of the frame holding rows equal on all compared fields
whose timestamps differ by at most the window (180 seconds, so a delta of
exactly the window is included) are both flagged; and on a two-row frame
whose delta strictly exceeds the window nothing is flagged. -/
theorem dup_window_boundary_and_no_loss :
    (∀ (df : List Row) (i j : Nat) (ri rj : Row),
      i ≠ j → df[i]? = some ri → df[j]? = some rj →
      DB.dupEq ri rj = true →
      -180 ≤ tsVal ri - tsVal rj → tsVal ri - tsVal rj ≤ 180 →
      i ∈ DB.detect_duplicates df ∧ j ∈ DB.detect_duplicates df) ∧
    (∀ r1 r2 : Row, 180 < tsVal r2 - tsVal r1 →
      DB.detect_duplicates [r1, r2] = []) := by
  constructor
  · intro df i j ri rj hij hi hj heq hlb hub
    have hx : ((i, ri) : Nat × Row) ∈ sortEnum df := mem_sortEnum.mpr hi
    have hy : ((j, rj) : Nat × Row) ∈ sortEnum df := mem_sortEnum.mpr hj
    have hne : ((i, ri) : Nat × Row) ≠ (j, rj) := by
      intro hcon
      exact hij (congrArg Prod.fst hcon)
    exact collectDups_complete (sortEnum df) (sorted_sortEnum df) (i, ri) (j, rj)
      hx hy hne heq (DB.dbDupEq_comm heq) hlb hub
  · intro r1 r2 h
    have hle : tsLE (0, r1) (1, r2) := le_of_lt (by omega : tsVal r1 < tsVal r2)
    have hsort : List.insertionSort tsLE [(0, r1), (1, r2)] = [(0, r1), (1, r2)] := by
      simp [List.insertionSort, List.orderedInsert, if_pos hle]
    show collectDups DB.dupEq (List.insertionSort tsLE ([r1, r2] : List Row).enum) = []
    have henum : ([r1, r2] : List Row).enum = [(0, r1), (1, r2)] := rfl
    rw [henum, hsort]
    simp [collectDups, scanAhead, h]

/-- A concrete UPI debit row at a given timestamp and payment mode, used to
instantiate the general theorems. -/
def jioRow (ts : Int) (pm : String) : Row :=
  { date := "2025-07-01", time := "10:00:00", timestamp := some ts, amount := 349,
    merchant := "Jio", category := "Recharge", city := "Pune", txn_type := "debit",
    payment_mode := pm }

def wRow0 : Row := jioRow 0 "UPI"

def wRow180 : Row := jioRow 180 "UPI"

def wRow181 : Row := jioRow 181 "UPI"

/-- C5 witness: on a concrete frame, a pair with delta exactly 180 seconds is
flagged at both positions, and a pair 181 seconds apart yields nothing. -/
theorem dup_window_boundary_witness :
    (0 ∈ DB.detect_duplicates [wRow0, wRow180] ∧
      1 ∈ DB.detect_duplicates [wRow0, wRow180]) ∧
    DB.detect_duplicates [wRow0, wRow181] = [] :=
  ⟨dup_window_boundary_and_no_loss.1 [wRow0, wRow180] 0 1 wRow0 wRow180
      (by decide) rfl rfl (by decide) (by decide) (by decide),
    dup_window_boundary_and_no_loss.2 wRow0 wRow181 (by decide)⟩

/-- C2 (amended): on a two-row frame within the window, each duplicate
detector flags both rows exactly when its own field comparison matches: the
dashboard copy compares amount, merchant, txn_type and city only, while the
anomalyDetector copy also compares payment_mode. -/
theorem dup_compared_fields_two_row :
    (∀ r1 r2 : Row, tsVal r1 ≤ tsVal r2 → tsVal r2 - tsVal r1 ≤ 180 →
      DB.detect_duplicates [r1, r2] = if DB.dupEq r1 r2 then [0, 1] else []) ∧
    (∀ r1 r2 : Row, parseTS r1.date r1.time ≤ parseTS r2.date r2.time →
      parseTS r2.date r2.time - parseTS r1.date r1.time ≤ 180 →
      (AD.detect_duplicates [r1, r2]).1 = if AD.dupEq r1 r2 then [0, 1] else []) := by
  constructor
  · intro r1 r2 hord hwin
    have hle : tsLE (0, r1) (1, r2) := hord
    have hsort : List.insertionSort tsLE [(0, r1), (1, r2)] = [(0, r1), (1, r2)] := by
      simp [List.insertionSort, List.orderedInsert, if_pos hle]
    show collectDups DB.dupEq (List.insertionSort tsLE ([r1, r2] : List Row).enum) = _
    have henum : ([r1, r2] : List Row).enum = [(0, r1), (1, r2)] := rfl
    rw [henum, hsort]
    have hnogap : ¬ 180 < tsVal r2 - tsVal r1 := not_lt.mpr hwin
    by_cases hm : DB.dupEq r1 r2 = true
    · simp [collectDups, scanAhead, hnogap, hm]
    · simp [collectDups, scanAhead, hnogap, hm]
  · intro r1 r2 hord hwin
    have hle : tsLE (0, setTS r1) (1, setTS r2) := hord
    have hsort : List.insertionSort tsLE [(0, setTS r1), (1, setTS r2)] =
        [(0, setTS r1), (1, setTS r2)] := by
      simp [List.insertionSort, List.orderedInsert, if_pos hle]
    show collectDups AD.dupEq
        (List.insertionSort tsLE (([r1, r2] : List Row).map setTS).enum) = _
    have henum : (([r1, r2] : List Row).map setTS).enum =
        [(0, setTS r1), (1, setTS r2)] := rfl
    rw [henum, hsort]
    have hnogap : ¬ 180 < tsVal (setTS r2) - tsVal (setTS r1) := by
      rw [tsVal_setTS, tsVal_setTS]; omega
    by_cases hm : AD.dupEq r1 r2 = true
    · simp [collectDups, scanAhead, hnogap, AD.dupEq_setTS, hm]
    · simp [collectDups, scanAhead, hnogap, AD.dupEq_setTS, hm]

def pmRow1 : Row := jioRow 1751364000 "UPI"

def pmRow2 : Row := jioRow 1751364150 "Card"

/-- C2 counterexample: two transactions 150 seconds apart agreeing on amount,
merchant, txn_type and city but with different payment modes are both flagged
by the dashboard duplicate detector, against the claim that such a pair is
not flagged. -/
theorem dup_payment_mode_flagged_by_dashboard :
    pmRow1.amount = pmRow2.amount ∧ pmRow1.merchant = pmRow2.merchant ∧
    pmRow1.txn_type = pmRow2.txn_type ∧ pmRow1.city = pmRow2.city ∧
    pmRow1.payment_mode ≠ pmRow2.payment_mode ∧
    0 ≤ tsVal pmRow2 - tsVal pmRow1 ∧ tsVal pmRow2 - tsVal pmRow1 ≤ 180 ∧
    0 ∈ DB.detect_duplicates [pmRow1, pmRow2] ∧
    1 ∈ DB.detect_duplicates [pmRow1, pmRow2] := by
  decide

/-- C2 witness: the two-row characterizations applied at the concrete pair
differing only in payment_mode. -/
theorem dup_compared_fields_two_row_witness :
    DB.detect_duplicates [pmRow1, pmRow2] =
      (if DB.dupEq pmRow1 pmRow2 then [0, 1] else []) ∧
    (AD.detect_duplicates [wRow0, wRow180]).1 =
      (if AD.dupEq wRow0 wRow180 then [0, 1] else []) :=
  ⟨dup_compared_fields_two_row.1 pmRow1 pmRow2 (by decide) (by decide),
    dup_compared_fields_two_row.2 wRow0 wRow180 (by decide) (by decide)⟩

/-- A Jio recharge purchase row with a given catalog amount and timestamp. -/
def jioPlan (amt : ℚ) (ts : Int) : Row :=
  { date := "2025-07-01", time := "10:00:00", timestamp := some ts, amount := amt,
    merchant := "Jio", category := "Recharge", city := "Pune", txn_type := "debit",
    payment_mode := "UPI" }

/-- The fields the dashboard recharge loop gives a record it emits from a row. -/
def emittedFrom (now : Int) (row : Row) (ar : DB.ActiveRecharge) : Prop :=
  ar.merchant = row.merchant ∧ ar.amount = row.amount ∧
  RECHARGE_VALIDITY row.amount = some ar.validity_days ∧
  ar.start_date = tsVal row ∧
  ar.due_date = tsVal row + 86400 * ar.validity_days ∧
  now < ar.due_date ∧
  ar.days_remaining = Int.fdiv (ar.due_date - now) 86400

lemma rechargeStep_sound (now : Int) (acc : List DB.ActiveRecharge × List (String × ℚ))
    (row : Row) :
    ∀ ar ∈ (DB.rechargeStep now acc row).1, ar ∈ acc.1 ∨ emittedFrom now row ar := by
  intro ar har
  unfold DB.rechargeStep at har
  split at har
  · exact Or.inl har
  · split at har
    · exact Or.inl har
    · next v hv =>
      dsimp only at har
      split at har
      · next hact =>
        rcases List.mem_append.mp har with h1 | h2
        · exact Or.inl h1
        · rw [List.mem_singleton] at h2
          subst h2
          exact Or.inr ⟨rfl, rfl, hv, rfl, rfl, hact, rfl⟩
      · exact Or.inl har

lemma foldl_recharge_sound (now : Int) :
    ∀ (l : List Row) (acc : List DB.ActiveRecharge × List (String × ℚ)),
      ∀ ar ∈ (l.foldl (DB.rechargeStep now) acc).1,
        ar ∈ acc.1 ∨ ∃ row ∈ l, emittedFrom now row ar := by
  intro l
  induction l with
  | nil => intro acc ar har; exact Or.inl har
  | cons h t ih =>
    intro acc ar har
    rw [List.foldl_cons] at har
    rcases ih (DB.rechargeStep now acc h) ar har with hacc | ⟨row, hrow, hem⟩
    · rcases rechargeStep_sound now acc h ar hacc with h1 | h2
      · exact Or.inl h1
      · exact Or.inr ⟨h, List.mem_cons_self _ _, h2⟩
    · exact Or.inr ⟨row, List.mem_cons_of_mem _ hrow, hem⟩

/-- Every record emitted by the dashboard recharge tracker comes from a
Recharge-category row of the frame, carries that row's merchant, amount,
timestamp and catalog validity, and was unexpired at the sampled clock. -/
lemma recharge_sound (df : List Row) (now : Int) :
    ∀ ar ∈ DB.detect_all_current_recharges df now,
      ∃ row ∈ df, row.category = "Recharge" ∧ emittedFrom now row ar := by
  intro ar har
  have h1 : DB.detect_all_current_recharges df now =
      ((List.insertionSort tsGE (df.filter (fun r => r.category == "Recharge"))).foldl
        (DB.rechargeStep now) ([], [])).1 := rfl
  rw [h1] at har
  rcases foldl_recharge_sound now _ _ ar har with habs | ⟨row, hrow, hem⟩
  · simp at habs
  · have hrow2 : row ∈ df.filter (fun r => r.category == "Recharge") :=
      (List.mem_insertionSort tsGE).mp hrow
    have hmf := List.mem_filter.mp hrow2
    exact ⟨row, hmf.1, by simpa using hmf.2, hem⟩

/-- C10: when no recharge purchase of the frame is dated after the sampled
clock, every emitted ActiveRecharge has its due date exactly the start date
plus the catalog validity of its amount, and a days_remaining between 0 and
that validity. -/
theorem recharge_emit_invariants :
    ∀ (df : List Row) (now : Int),
    (∀ r ∈ df, r.category = "Recharge" → tsVal r ≤ now) →
    ∀ ar ∈ DB.detect_all_current_recharges df now,
      RECHARGE_VALIDITY ar.amount = some ar.validity_days ∧
      ar.due_date = ar.start_date + 86400 * ar.validity_days ∧
      0 ≤ ar.days_remaining ∧ ar.days_remaining ≤ (ar.validity_days : Int) := by
  intro df now hts ar har
  obtain ⟨row, hrow, hcat, hm, ha, hv, hs, hd, hact, hdays⟩ := recharge_sound df now ar har
  refine ⟨by rw [ha]; exact hv, by rw [hd, hs], ?_, ?_⟩
  · rw [hdays, Int.fdiv_eq_ediv _ (by norm_num)]
    exact Int.ediv_nonneg (by omega) (by norm_num)
  · rw [hdays, Int.fdiv_eq_ediv _ (by norm_num)]
    have hrts := hts row hrow hcat
    have hle : ar.due_date - now ≤ 86400 * (ar.validity_days : Int) := by omega
    have h2 := Int.ediv_le_ediv (by norm_num : (0:Int) < 86400) hle
    rwa [Int.mul_ediv_cancel_left _ (by norm_num : (86400:Int) ≠ 0)] at h2

/-- The record the dashboard tracker emits for a Jio 349 purchase at second
1000 observed at second 2000. -/
def jioActive : DB.ActiveRecharge :=
  { merchant := "Jio", amount := 349, start_date := 1000, due_date := 2420200,
    days_remaining := 27, validity_days := 28 }

/-- C10 witness: the invariants instantiated on a one-purchase frame and the
concrete record it emits. -/
theorem recharge_emit_invariants_witness :
    RECHARGE_VALIDITY jioActive.amount = some jioActive.validity_days ∧
    jioActive.due_date = jioActive.start_date + 86400 * jioActive.validity_days ∧
    0 ≤ jioActive.days_remaining ∧
    jioActive.days_remaining ≤ (jioActive.validity_days : Int) :=
  recharge_emit_invariants [jioPlan 349 1000] 2000 (by decide) jioActive (by decide)

/-- C1 (amended): in the dashboard tracker, a lapsed purchase does NOT mark
its (merchant, amount) pair as seen; nevertheless, when the most recent
purchase of a pair has lapsed, no ActiveRecharge of that pair is ever
emitted, because every older purchase of the same pair shares the same
catalog validity and so has an even earlier due date, which has also lapsed. -/
theorem lapsed_recent_blocks_older :
    ∀ (df : List Row) (now : Int) (m : String) (a : ℚ) (r0 : Row),
      r0 ∈ df → r0.category = "Recharge" → r0.merchant = m → r0.amount = a →
      (∀ r ∈ df, r.category = "Recharge" → r.merchant = m → r.amount = a →
        tsVal r ≤ tsVal r0) →
      (∀ v : Nat, RECHARGE_VALIDITY a = some v → tsVal r0 + 86400 * v ≤ now) →
      ∀ ar ∈ DB.detect_all_current_recharges df now,
        ¬(ar.merchant = m ∧ ar.amount = a) := by
  intro df now m a r0 hr0 hcat0 hm0 ha0 hlatest hlapsed ar har hpair
  obtain ⟨row, hrow, hcat, hm, ha, hv, hs, hd, hact, hdays⟩ := recharge_sound df now ar har
  have hrm : row.merchant = m := hm.symm.trans hpair.1
  have hra : row.amount = a := ha.symm.trans hpair.2
  have hts : tsVal row ≤ tsVal r0 := hlatest row hrow hcat hrm hra
  have hva : RECHARGE_VALIDITY a = some ar.validity_days := hra ▸ hv
  have hlap := hlapsed ar.validity_days hva
  omega

/-- C1 counterexample: a single lapsed Jio 349 purchase leaves the seen set
empty, against the claim that the pair is marked as seen regardless of
whether the purchase qualified as active. -/
theorem lapsed_purchase_not_marked_seen :
    (jioPlan 349 1000).category = "Recharge" ∧
    RECHARGE_VALIDITY (jioPlan 349 1000).amount = some 28 ∧
    tsVal (jioPlan 349 1000) + 86400 * 28 ≤ 2420200 ∧
    ("Jio", (349 : ℚ)) ∉ (DB.rechargeState [jioPlan 349 1000] 2420200).2 ∧
    DB.detect_all_current_recharges [jioPlan 349 1000] 2420200 = [] := by
  decide

/-- C1 witness: the amended blocking property instantiated on a frame whose
most recent Jio 349 purchase has lapsed while an older one exists; in
particular the record of the pair is not in the output. -/
theorem lapsed_recent_blocks_older_witness :
    jioActive ∉ DB.detect_all_current_recharges [jioPlan 349 1000, jioPlan 349 500] 2420200 :=
  fun h =>
    lapsed_recent_blocks_older [jioPlan 349 1000, jioPlan 349 500] 2420200 "Jio" 349
      (jioPlan 349 1000) (by decide) (by decide) (by decide) (by decide)
      (by decide) (by decide) jioActive h ⟨rfl, rfl⟩

/-- C3 (amended): the dashboard tracker dedups by the (merchant, amount)
pair, so two unexpired purchases at the same merchant with different catalog
amounts both yield an ActiveRecharge; the anomalyDetector copy instead skips
any row for which some already emitted record has the same merchant and a
later-or-equal start date, regardless of amount (see the counterexample). -/
theorem recharge_dedup_key_merchant_amount :
    ∀ (r1 r2 : Row) (now : Int) (v1 v2 : Nat),
      r1.category = "Recharge" → r2.category = "Recharge" →
      r1.merchant = r2.merchant → r1.amount ≠ r2.amount →
      RECHARGE_VALIDITY r1.amount = some v1 → RECHARGE_VALIDITY r2.amount = some v2 →
      now < tsVal r1 + 86400 * v1 → now < tsVal r2 + 86400 * v2 →
      tsVal r2 ≤ tsVal r1 →
      DB.detect_all_current_recharges [r1, r2] now =
        [{ merchant := r1.merchant, amount := r1.amount, start_date := tsVal r1,
           due_date := tsVal r1 + 86400 * v1,
           days_remaining := Int.fdiv (tsVal r1 + 86400 * v1 - now) 86400,
           validity_days := v1 },
         { merchant := r2.merchant, amount := r2.amount, start_date := tsVal r2,
           due_date := tsVal r2 + 86400 * v2,
           days_remaining := Int.fdiv (tsVal r2 + 86400 * v2 - now) 86400,
           validity_days := v2 }] := by
  intro r1 r2 now v1 v2 hc1 hc2 hmer hamt hv1 hv2 hact1 hact2 hord
  have hfilter : ([r1, r2] : List Row).filter (fun r => r.category == "Recharge") =
      [r1, r2] := by
    simp [List.filter, hc1, hc2]
  have hge : tsGE r1 r2 := hord
  have hsort : List.insertionSort tsGE [r1, r2] = [r1, r2] := by
    simp [List.insertionSort, List.orderedInsert, if_pos hge]
  have hnotseen : ((r2.merchant, r2.amount) : String × ℚ) ∉ [(r1.merchant, r1.amount)] := by
    simp only [List.mem_singleton, Prod.mk.injEq, not_and]
    intro _ hEq
    exact hamt hEq.symm
  show ((List.insertionSort tsGE (([r1, r2] : List Row).filter
      (fun r => r.category == "Recharge"))).foldl (DB.rechargeStep now) ([], [])).1 = _
  rw [hfilter, hsort, List.foldl_cons, List.foldl_cons, List.foldl_nil]
  simp only [DB.rechargeStep, List.not_mem_nil, if_neg, hv1, hv2, hact1, hact2, if_pos,
    List.nil_append, hnotseen, if_true, if_false]
  simp [hact1, hact2, hnotseen]

/-- C3 counterexample: two unexpired Jio purchases with different catalog
amounts, where the anomalyDetector tracker reports only one ActiveRecharge
because its skip test compares merchant and start date only. -/
theorem ad_recharge_dedup_by_merchant_only :
    (jioPlan 349 1000).merchant = (jioPlan 199 500).merchant ∧
    (jioPlan 349 1000).amount ≠ (jioPlan 199 500).amount ∧
    RECHARGE_VALIDITY (jioPlan 349 1000).amount = some 28 ∧
    RECHARGE_VALIDITY (jioPlan 199 500).amount = some 28 ∧
    (2000 : Int) < tsVal (jioPlan 349 1000) + 86400 * 28 ∧
    (2000 : Int) < tsVal (jioPlan 199 500) + 86400 * 28 ∧
    (AD.detect_current_recharge [jioPlan 349 1000, jioPlan 199 500] 2000).length = 1 := by
  decide

/-- C3 witness: the dashboard two-row dedup theorem instantiated on the same
pair of purchases, which both appear. -/
theorem recharge_dedup_key_merchant_amount_witness :
    DB.detect_all_current_recharges [jioPlan 349 1000, jioPlan 199 500] 2000 =
      [{ merchant := "Jio", amount := 349, start_date := 1000,
         due_date := 1000 + 86400 * 28,
         days_remaining := Int.fdiv (1000 + 86400 * 28 - 2000) 86400,
         validity_days := 28 },
       { merchant := "Jio", amount := 199, start_date := 500,
         due_date := 500 + 86400 * 28,
         days_remaining := Int.fdiv (500 + 86400 * 28 - 2000) 86400,
         validity_days := 28 }] :=
  recharge_dedup_key_merchant_amount (jioPlan 349 1000) (jioPlan 199 500) 2000 28 28
    (by decide) (by decide) (by decide) (by decide) (by decide) (by decide)
    (by decide) (by decide) (by decide)

/-- C7 (amended): the duplicate, spike and locality detectors are functions
of the frame alone, but the recharge tracker also reads the clock, so two
runs agree only when the two clock samples decide every expiry test the same
way and give every unexpired catalog row the same whole-day countdown; the
counterexample shows runs at different instants can differ on a fixed frame. -/
theorem recharge_depends_on_sampled_clock :
    ∀ (df : List Row) (now1 now2 : Int),
      (∀ r ∈ df, r.category = "Recharge" →
        ∀ v : Nat, RECHARGE_VALIDITY r.amount = some v →
          ((now1 < tsVal r + 86400 * v) ↔ (now2 < tsVal r + 86400 * v)) ∧
          Int.fdiv (tsVal r + 86400 * v - now1) 86400 =
            Int.fdiv (tsVal r + 86400 * v - now2) 86400) →
      DB.detect_all_current_recharges df now1 = DB.detect_all_current_recharges df now2 := by
  intro df now1 now2 hyp
  show ((List.insertionSort tsGE (df.filter (fun r => r.category == "Recharge"))).foldl
      (DB.rechargeStep now1) ([], [])).1 = _
  have hfold : (List.insertionSort tsGE (df.filter (fun r => r.category == "Recharge"))).foldl
      (DB.rechargeStep now1) ([], []) =
      (List.insertionSort tsGE (df.filter (fun r => r.category == "Recharge"))).foldl
      (DB.rechargeStep now2) ([], []) := by
    apply List.foldl_ext
    intro acc r hr
    have hrf := List.mem_filter.mp ((List.mem_insertionSort tsGE).mp hr)
    have hcat : r.category = "Recharge" := by simpa using hrf.2
    have hspec := hyp r hrf.1 hcat
    unfold DB.rechargeStep
    by_cases hseen : (r.merchant, r.amount) ∈ acc.2
    · rw [if_pos hseen, if_pos hseen]
    · rw [if_neg hseen, if_neg hseen]
      cases hv : RECHARGE_VALIDITY r.amount with
      | none => rfl
      | some v =>
        obtain ⟨hiff, hfd⟩ := hspec v hv
        dsimp only
        by_cases hact : now1 < tsVal r + 86400 * v
        · rw [if_pos hact, if_pos (hiff.mp hact), hfd]
        · rw [if_neg hact, if_neg (fun hc => hact (hiff.mpr hc))]
  rw [hfold]
  rfl

/-- C7 counterexample: the recharge tracker run twice on the same one-row
frame, at two different clock instants, returns different output (one active
plan versus none), so its output is not a function of the frame alone. -/
theorem recharge_output_varies_with_clock :
    DB.detect_all_current_recharges [jioPlan 349 1000] 2000 ≠
      DB.detect_all_current_recharges [jioPlan 349 1000] 2420200 := by
  decide

/-- C7 witness: the clock-congruence applied at two instants that decide the
expiry test identically and land in the same whole-day countdown. -/
theorem recharge_depends_on_sampled_clock_witness :
    DB.detect_all_current_recharges [jioPlan 349 1000] 2000 =
      DB.detect_all_current_recharges [jioPlan 349 1000] 50000 :=
  recharge_depends_on_sampled_clock [jioPlan 349 1000] 2000 50000 (by
    intro r hr hcat v hv
    rw [List.mem_singleton] at hr
    subst hr
    have h28 : (28 : Nat) = v := by
      have he : RECHARGE_VALIDITY (jioPlan 349 1000).amount = some 28 := by decide
      rw [he] at hv
      exact Option.some.inj hv
    subst h28
    exact ⟨by decide, by decide⟩)

/-- C6 (amended): the anomalyDetector duplicate detector does write to its
input frame: the returned frame state is the input with the parsed timestamp
column assigned on every row, which changes the frame whenever the column was
absent or held different values; when every row already carries exactly the
parsed timestamp, the frame is left unchanged.  (The dashboard detectors only
read their input, which the embedding reflects by returning no frame state.) -/
theorem ad_dup_writes_timestamp_column :
    ∀ df : List Row,
      (AD.detect_duplicates df).2 = df.map setTS ∧
      ((∀ r ∈ df, r.timestamp = some (parseTS r.date r.time)) →
        (AD.detect_duplicates df).2 = df) := by
  intro df
  refine ⟨rfl, ?_⟩
  intro hts
  have hfix : ∀ r ∈ df, setTS r = id r := by
    intro r hr
    have h := hts r hr
    cases r with
    | mk d t ts amt mer cat city ty pm =>
      simp only [tsVal] at h
      simp [setTS, h.symm]
  show df.map setTS = df
  rw [List.map_congr_left hfix, List.map_id]

def noTsRow : Row :=
  { date := "2025-07-01", time := "10:00:00", timestamp := none, amount := 500,
    merchant := "Amazon", category := "Shopping", city := "Pune", txn_type := "debit",
    payment_mode := "UPI" }

/-- C6 counterexample: on a frame whose timestamp column is absent, the
anomalyDetector duplicate detector leaves the frame changed (the column has
been added), against the claim that no detector adds or overwrites columns
of its input. -/
theorem ad_dup_changes_input_frame :
    noTsRow.timestamp = none ∧ (AD.detect_duplicates [noTsRow]).2 ≠ [noTsRow] := by
  decide

/-- C6 witness: a frame already carrying the parsed timestamps passes through
the anomalyDetector duplicate detector unchanged. -/
theorem ad_dup_writes_timestamp_column_witness :
    (AD.detect_duplicates [setTS noTsRow]).2 = [setTS noTsRow] :=
  (ad_dup_writes_timestamp_column [setTS noTsRow]).2 (by decide)

lemma medianOfSorted_zero (s : List ℚ) (hz : ∀ q ∈ s, q = 0) :
    ∀ m, medianOfSorted s = some m → m = 0 := by
  intro m hm
  have hget : ∀ k, s.getD k 0 = 0 := by
    intro k
    rw [List.getD_eq_getElem?_getD]
    cases hsk : s[k]? with
    | none => rfl
    | some x => simpa using hz x (List.getElem?_mem hsk)
  unfold medianOfSorted at hm
  by_cases h0 : s.length = 0
  · rw [if_pos h0] at hm; cases hm
  · rw [if_neg h0] at hm
    by_cases hodd : s.length % 2 = 1
    · rw [if_pos hodd, hget] at hm
      exact (Option.some.inj hm).symm
    · rw [if_neg hodd, hget, hget] at hm
      rw [← Option.some.inj hm]
      norm_num

lemma median_zero (l : List ℚ) (hz : ∀ q ∈ l, q = 0) : ∀ m, median l = some m → m = 0 := by
  intro m hm
  refine medianOfSorted_zero _ ?_ m hm
  intro q hq
  exact hz q ((List.perm_insertionSort _ l).mem_iff.mp hq)

/-- C4: the spike detector returns exactly the rows whose amount strictly
exceeds ten times the median amount of the whole frame; a row at exactly ten
times the median is not returned; with median zero every positive-amount row
is returned; and an all-zero frame yields no spikes. -/
theorem spike_threshold_semantics :
    ∀ df : List Row,
      (∀ r, r ∈ detect_spikes df ↔
        ∃ m, median (df.map Row.amount) = some m ∧ r ∈ df ∧ 10 * m < r.amount) ∧
      (∀ (m : ℚ) (r : Row), median (df.map Row.amount) = some m → r.amount = 10 * m →
        r ∉ detect_spikes df) ∧
      (median (df.map Row.amount) = some 0 → ∀ r ∈ df, 0 < r.amount →
        r ∈ detect_spikes df) ∧
      ((∀ r ∈ df, r.amount = 0) → detect_spikes df = []) := by
  intro df
  have main : ∀ r, r ∈ detect_spikes df ↔
      ∃ m, median (df.map Row.amount) = some m ∧ r ∈ df ∧ 10 * m < r.amount := by
    intro r
    cases hm : median (df.map Row.amount) with
    | none => simp [detect_spikes, hm]
    | some m => simp [detect_spikes, hm, List.mem_filter, and_assoc]
  refine ⟨main, ?_, ?_, ?_⟩
  · intro m r hm heq hmem
    obtain ⟨m2, hm2, _, hlt⟩ := (main r).mp hmem
    rw [hm] at hm2
    rw [heq, Option.some.inj hm2] at hlt
    exact lt_irrefl _ hlt
  · intro hm r hr hpos
    exact (main r).mpr ⟨0, hm, hr, by simpa using hpos⟩
  · intro hz
    cases hm : median (df.map Row.amount) with
    | none => simp [detect_spikes, hm]
    | some m =>
      have hm0 : m = 0 := by
        refine median_zero _ ?_ m hm
        intro q hq
        obtain ⟨r, hr, rfl⟩ := List.mem_map.mp hq
        exact hz r hr
      subst hm0
      rw [detect_spikes, hm]
      rw [List.filter_eq_nil_iff]
      intro r hr
      simp [hz r hr]

/-- A bare row with a given amount, for the spike scenarios. -/
def amtRow (a : ℚ) : Row :=
  { date := "2025-07-01", time := "10:00:00", timestamp := some 0, amount := a,
    merchant := "Store", category := "Shopping", city := "Pune", txn_type := "debit",
    payment_mode := "UPI" }

/-- C4 witness: on concrete frames, a row at exactly ten times the median is
not flagged, a positive row over a zero median is flagged, and an all-zero
frame yields no spikes. -/
theorem spike_threshold_semantics_witness :
    amtRow 100 ∉ detect_spikes [amtRow 10, amtRow 10, amtRow 10, amtRow 50, amtRow 100] ∧
    amtRow 5 ∈ detect_spikes [amtRow 0, amtRow 0, amtRow 5] ∧
    detect_spikes [amtRow 0, amtRow 0] = [] :=
  ⟨(spike_threshold_semantics [amtRow 10, amtRow 10, amtRow 10, amtRow 50, amtRow 100]).2.1
      10 (amtRow 100) (by decide) (by norm_num [amtRow]),
    (spike_threshold_semantics [amtRow 0, amtRow 0, amtRow 5]).2.2.1 (by decide)
      (amtRow 5) (by decide) (by decide),
    (spike_threshold_semantics [amtRow 0, amtRow 0]).2.2.2 (by decide)⟩

/-- C8: every detector returns an empty result on an empty frame, and the
duplicate detectors also return an empty result on a one-row frame; all are
total functions, so no input raises an error. -/
theorem detectors_empty_input :
    DB.detect_duplicates [] = [] ∧
    (∀ r : Row, DB.detect_duplicates [r] = []) ∧
    (AD.detect_duplicates []).1 = [] ∧
    (∀ r : Row, (AD.detect_duplicates [r]).1 = []) ∧
    detect_spikes [] = [] ∧
    (∀ c : String, detect_out_of_city [] c = []) ∧
    (∀ now : Int, DB.detect_all_current_recharges [] now = []) ∧
    (∀ now : Int, AD.detect_current_recharge [] now = []) :=
  ⟨rfl, fun _ => rfl, rfl, fun _ => rfl, rfl, fun _ => rfl, fun _ => rfl, fun _ => rfl⟩

/-- C9 witness: the partner property and the no-singleton property applied
on a concrete frame of two matching recharge purchases 150 seconds apart. -/
theorem dup_partner_and_no_singleton_witness :
    (0 ∈ (AD.detect_duplicates [wRow0, wRow180]).1) ∧
    (∃ b, b ∈ (AD.detect_duplicates [wRow0, wRow180]).1 ∧ b ≠ 0 ∧
      ∃ ra rb, (AD.detect_duplicates [wRow0, wRow180]).2[0]? = some ra ∧
        (AD.detect_duplicates [wRow0, wRow180]).2[b]? = some rb ∧
        AD.dupEq ra rb = true ∧
        -180 ≤ tsVal ra - tsVal rb ∧ tsVal ra - tsVal rb ≤ 180) ∧
    (∃ a b, a ∈ (AD.detect_duplicates [wRow0, wRow180]).1 ∧
      b ∈ (AD.detect_duplicates [wRow0, wRow180]).1 ∧ a ≠ b) :=
  ⟨by decide,
    dup_partner_and_no_singleton.1 [wRow0, wRow180] 0 (by decide),
    dup_partner_and_no_singleton.2 [wRow0, wRow180] (by decide)⟩
